import Mathlib

/-!
Verification of the glicko repository (treepeck/glicko), a Glicko-2
player-strength estimator.

The repository's floating-point arithmetic is embedded over the real
numbers `ℝ`, with `Real.exp`, `Real.log`, `Real.sqrt` standing for the
`math` library functions.  The two unbounded loops of the volatility
solver (the bracket-expansion walk and the Illinois secant refinement)
are embedded as fuel-indexed recursions returning `Option`: `none`
means the loop has not finished within the given number of iterations,
so a result `some r` corresponds exactly to a terminating run of the Go
code.

Three revisions of the package appear in the sources and are embedded
separately:
  * namespace `Glicko` — the current `Estimator` API of glicko.go
    (single-outcome `Estimate` with a `periodFraction`);
  * namespace `Legacy` — the older `EvaluatePlayer` batch API that is
    concatenated in glicko.go (package-level `sigmaPrime` returning
    `exp(a/2)`);
  * namespace `GoFloatModel` — a small model of `Estimator.Validate`
    under IEEE-754 comparison semantics, where `none` stands for NaN
    and every comparison involving NaN is false.
  * namespace `Batch` — the batch revision of part_001 (list of
    outcomes, empty-outcome fast path, transposed helper `f`).
-/

namespace Glicko

/-- `pow2` from src/glicko.go: squares its argument. -/
def pow2 (val : ℝ) : ℝ := val * val

/-- `Strength` from src/glicko.go: a player's strength estimate. -/
structure Strength where
  Mu : ℝ
  Phi : ℝ
  Sigma : ℝ

/-- `Outcome` from src/glicko.go (current revision): Glicko-2 scaled
opponent data and the score of a single match. -/
structure Outcome where
  Mu : ℝ
  Phi : ℝ
  Score : ℝ

/-- `Outcome.g` from src/glicko.go: the opponent-reliability weighting
factor. -/
noncomputable def Outcome.g (o : Outcome) : ℝ :=
  1 / Real.sqrt (1 + 3 * pow2 o.Phi / pow2 Real.pi)

/-- `Outcome.e` from src/glicko.go: the expected score of the acting
player against the opponent. -/
noncomputable def Outcome.e (o : Outcome) (g mu : ℝ) : ℝ :=
  1 / (1 + Real.exp (-g * (mu - o.Mu)))

/-- `Estimator` from src/glicko.go (current revision). -/
structure Estimator where
  Duration : ℕ
  MinPhi : ℝ
  MaxPhi : ℝ
  MinMu : ℝ
  MaxMu : ℝ
  MinSigma : ℝ
  MaxSigma : ℝ
  Tau : ℝ
  Epsilon : ℝ

/-- `Estimator.f` from src/glicko.go (current revision): the inner
function of the volatility root-finder. -/
noncomputable def Estimator.f (e : Estimator) (delta phi v a x : ℝ) : ℝ :=
  let exp := Real.exp x
  let tmp := pow2 phi + v + exp
  exp * (pow2 delta - tmp) / (2 * pow2 tmp) - (x - a) / pow2 e.Tau

/-- The bracket-expansion loop of `Estimator.sigmaPrime`
(src/glicko.go, `for k := 1.0; ; k++ { B = a - k*e.Tau; ... }`),
embedded with fuel: `none` means the walk has not found `f(B) > 0`
within `fuel` iterations. -/
noncomputable def Estimator.walkB (e : Estimator) (delta phi v a : ℝ) :
    ℕ → ℝ → Option ℝ
  | 0, _ => none
  | fuel + 1, k =>
    if e.f delta phi v a (a - k * e.Tau) > 0 then some (a - k * e.Tau)
    else e.walkB delta phi v a fuel (k + 1)

/-- The initial upper bracket `B` of `Estimator.sigmaPrime`
(src/glicko.go): the closed form when `delta² > phi² + v`, otherwise
the expansion walk starting at `k = 1`. -/
noncomputable def Estimator.bracketB (e : Estimator) (delta phi v a : ℝ)
    (fuel : ℕ) : Option ℝ :=
  if pow2 delta > pow2 phi + v then some (Real.log (pow2 delta - pow2 phi - v))
  else e.walkB delta phi v a fuel 1

/-- The loop state of the Illinois secant refinement in
`Estimator.sigmaPrime`: the two endpoints and their function values. -/
structure IllState where
  A : ℝ
  fA : ℝ
  B : ℝ
  fB : ℝ

/-- One iteration of the Illinois secant loop of `Estimator.sigmaPrime`
(src/glicko.go): the secant step `C`, then either the bracket swap
(`fC*fB ≤ 0`) or the Illinois halving of `fA`. -/
noncomputable def Estimator.illStep (e : Estimator) (delta phi v a : ℝ)
    (st : IllState) : IllState :=
  let C := st.A + (st.A - st.B) * st.fA / (st.fB - st.fA)
  let fC := e.f delta phi v a C
  if fC * st.fB ≤ 0 then ⟨st.B, st.fB, C, fC⟩
  else ⟨st.A, st.fA / 2, C, fC⟩

/-- The Illinois secant loop of `Estimator.sigmaPrime`
(src/glicko.go, `for math.Abs(B-A) > e.Epsilon { ... }`), embedded
with fuel: `none` means the loop has not reached `|B - A| ≤ epsilon`
within `fuel` iterations. -/
noncomputable def Estimator.illLoop (e : Estimator) (delta phi v a : ℝ) :
    ℕ → IllState → Option IllState
  | 0, st => if |st.B - st.A| > e.Epsilon then none else some st
  | fuel + 1, st =>
    if |st.B - st.A| > e.Epsilon then
      e.illLoop delta phi v a fuel (e.illStep delta phi v a st)
    else some st

/-- `Estimator.sigmaPrime` from src/glicko.go (current revision): the
volatility solver.  Returns `exp(A/2)` for the final bracket endpoint
`A` of the Illinois loop. -/
noncomputable def Estimator.sigmaPrime (e : Estimator) (s : Strength)
    (delta v : ℝ) (fuel : ℕ) : Option ℝ :=
  let a := Real.log (pow2 s.Sigma)
  (e.bracketB delta s.Phi v a fuel).bind fun B =>
    (e.illLoop delta s.Phi v a fuel
        ⟨a, e.f delta s.Phi v a a, B, e.f delta s.Phi v a B⟩).map
      fun st => Real.exp (st.A / 2)

/-- `Estimator.Validate` from src/glicko.go: clamps the three fields of
a `Strength` to their configured bounds. -/
noncomputable def Estimator.Validate (e : Estimator) (s : Strength) : Strength where
  Mu := if s.Mu < e.MinMu then e.MinMu else if s.Mu > e.MaxMu then e.MaxMu else s.Mu
  Phi := if s.Phi < e.MinPhi then e.MinPhi else if s.Phi > e.MaxPhi then e.MaxPhi else s.Phi
  Sigma := if s.Sigma < e.MinSigma then e.MinSigma
    else if s.Sigma > e.MaxSigma then e.MaxSigma else s.Sigma

/-- The local `V` of `Estimator.Estimate` (src/glicko.go):
`V := 1 / (pow2(G) * E * (1 - E))` with `G := o.g()` and
`E := o.e(G, s.Mu)`. -/
noncomputable def outcomeV (o : Outcome) (mu : ℝ) : ℝ :=
  1 / (pow2 o.g * o.e o.g mu * (1 - o.e o.g mu))

/-- The local `Delta` of `Estimator.Estimate` (src/glicko.go):
`Delta := V * G * (o.Score - E)`. -/
noncomputable def outcomeDelta (o : Outcome) (mu : ℝ) : ℝ :=
  outcomeV o mu * o.g * (o.Score - o.e o.g mu)

/-- The state propagation of `Estimator.Estimate` (src/glicko.go)
after the volatility solve: `phiStar`, the new `phi` and the new `mu`,
given the solved volatility `sig`. -/
noncomputable def propagate (s : Strength) (delta v periodFraction sig : ℝ) :
    Strength :=
  let phiStar := Real.sqrt (pow2 s.Phi + pow2 sig * periodFraction)
  let phiNew := 1 / Real.sqrt (1 / pow2 phiStar + 1 / v)
  ⟨s.Mu + pow2 phiNew * (delta / v), phiNew, sig⟩

/-- The body of `Estimator.Estimate` from src/glicko.go before the
final `e.Validate(s)` call: weighting, evidence, volatility solve and
state propagation. -/
noncomputable def Estimator.preEstimate (e : Estimator) (s : Strength)
    (o : Outcome) (periodFraction : ℝ) (fuel : ℕ) : Option Strength :=
  (e.sigmaPrime s (outcomeDelta o s.Mu) (outcomeV o s.Mu) fuel).map
    (propagate s (outcomeDelta o s.Mu) (outcomeV o s.Mu) periodFraction)

/-- `Estimator.Estimate` from src/glicko.go (current revision): the
single-outcome update, followed by `Validate`. -/
noncomputable def Estimator.Estimate (e : Estimator) (s : Strength)
    (o : Outcome) (periodFraction : ℝ) (fuel : ℕ) : Option Strength :=
  (e.preEstimate s o periodFraction fuel).map e.Validate

/-- Modelled from the spec: the root-finder inner function exactly as
written in §4.3 of the specification,
`f(x) = [exp(x)·(delta² − phi² − v − exp(x))] / [2·(phi² + v + exp(x))²] − (x − a)/tau²`,
to be compared with the source's `Estimator.f`. -/
noncomputable def fSpec (tau delta phi v a x : ℝ) : ℝ :=
  Real.exp x * (pow2 delta - pow2 phi - v - Real.exp x) /
      (2 * pow2 (pow2 phi + v + Real.exp x)) -
    (x - a) / pow2 tau

end Glicko

namespace Legacy

open Glicko (pow2 IllState)

/-- `tau` constant of the legacy revision in src/glicko.go. -/
def tau : ℝ := 0.5

/-- `scale` constant of the legacy revision in src/glicko.go. -/
def scale : ℝ := 173.7178

/-- `epsilon` constant of the legacy revision in src/glicko.go. -/
def epsilon : ℝ := 0.000001

/-- `Evaluation` from the legacy revision in src/glicko.go. -/
structure Evaluation where
  Rating : ℝ
  Deviation : ℝ
  Volatility : ℝ

/-- `Outcome` from the legacy revision in src/glicko.go: precomputed
Glicko-2 evidence for one match. -/
structure Outcome where
  mu : ℝ
  phi : ℝ
  g : ℝ
  e : ℝ
  score : ℝ

/-- `calcPhi` from the legacy revision in src/glicko.go. -/
noncomputable def calcPhi (deviation : ℝ) : ℝ := deviation / scale

/-- `calcMu` from the legacy revision in src/glicko.go. -/
noncomputable def calcMu (rating : ℝ) : ℝ := (rating - 1500) / scale

/-- `calcV` from the legacy revision in src/glicko.go. -/
noncomputable def calcV (outcomes : List Outcome) : ℝ :=
  1 / (outcomes.foldl (fun acc o => acc + pow2 o.g * o.e * (1 - o.e)) 0)

/-- `calcDelta` from the legacy revision in src/glicko.go. -/
noncomputable def calcDelta (v : ℝ) (outcomes : List Outcome) : ℝ :=
  v * (outcomes.foldl (fun acc o => acc + o.g * (o.score - o.e)) 0)

/-- `f` from the legacy revision in src/glicko.go. -/
noncomputable def f (delta phi v a x : ℝ) : ℝ :=
  let exp := Real.exp x
  let left := exp * (pow2 delta - pow2 phi - v - exp) / (2 * pow2 (pow2 phi + v + exp))
  let right := (x - a) / pow2 tau
  left - right

/-- The bracket-expansion loop of the legacy `sigmaPrime`
(src/glicko.go), fuel-indexed. -/
noncomputable def walkB (delta phi v a : ℝ) : ℕ → ℝ → Option ℝ
  | 0, _ => none
  | fuel + 1, k =>
    if f delta phi v a (a - k * tau) > 0 then some (a - k * tau)
    else walkB delta phi v a fuel (k + 1)

/-- The initial upper bracket of the legacy `sigmaPrime`
(src/glicko.go). -/
noncomputable def bracketB (delta phi v a : ℝ) (fuel : ℕ) : Option ℝ :=
  if pow2 delta > pow2 phi + v then some (Real.log (pow2 delta - pow2 phi - v))
  else walkB delta phi v a fuel 1

/-- One iteration of the Illinois loop of the legacy `sigmaPrime`
(src/glicko.go). -/
noncomputable def illStep (delta phi v a : ℝ) (st : IllState) : IllState :=
  let C := st.A + (st.A - st.B) * st.fA / (st.fB - st.fA)
  let fC := f delta phi v a C
  if fC * st.fB ≤ 0 then ⟨st.B, st.fB, C, fC⟩
  else ⟨st.A, st.fA / 2, C, fC⟩

/-- The Illinois loop of the legacy `sigmaPrime` (src/glicko.go),
fuel-indexed. -/
noncomputable def illLoop (delta phi v a : ℝ) : ℕ → IllState → Option IllState
  | 0, st => if |st.B - st.A| > epsilon then none else some st
  | fuel + 1, st =>
    if |st.B - st.A| > epsilon then
      illLoop delta phi v a fuel (illStep delta phi v a st)
    else some st

/-- `sigmaPrime` from the legacy revision in src/glicko.go.  Note that
it returns `exp(a/2)` for the initial anchor `a = log(sigma²)`, not
the final bracket endpoint `A`. -/
noncomputable def sigmaPrime (sigma delta phi v : ℝ) (fuel : ℕ) : Option ℝ :=
  let a := Real.log (pow2 sigma)
  (bracketB delta phi v a fuel).bind fun B =>
    (illLoop delta phi v a fuel ⟨a, f delta phi v a a, B, f delta phi v a B⟩).map
      fun _ => Real.exp (a / 2)

/-- `EvaluatePlayer` from the legacy revision in src/glicko.go: the
batch rating-period update. -/
noncomputable def EvaluatePlayer (curr : Evaluation) (outcomes : List Outcome)
    (fuel : ℕ) : Option Evaluation :=
  let mu := calcMu curr.Rating
  let phi := calcPhi curr.Deviation
  let sigma := curr.Volatility
  let v := calcV outcomes
  let delta := calcDelta v outcomes
  (sigmaPrime sigma delta phi v fuel).map fun vol =>
    let phiStar := Real.sqrt (pow2 phi + pow2 vol)
    let dev := 1 / Real.sqrt (1 / pow2 phiStar + 1 / v)
    let sum := outcomes.foldl (fun acc o => acc + o.g * (o.score - o.e)) 0
    let rating := mu + pow2 dev * sum
    ⟨scale * rating + 1500, dev * scale, vol⟩

end Legacy

namespace Batch

open Glicko (pow2 Strength IllState)

/-- `Estimator` from src/unnamed/part_001 (the batch revision). -/
structure Estimator where
  MinPhi : ℝ
  MaxPhi : ℝ
  MinMu : ℝ
  MaxMu : ℝ
  MinSigma : ℝ
  MaxSigma : ℝ
  Tau : ℝ
  Epsilon : ℝ

/-- `Outcome` from src/unnamed/part_001: precomputed Glicko-2 evidence
for one match. -/
structure Outcome where
  mu : ℝ
  phi : ℝ
  g : ℝ
  e : ℝ
  score : ℝ

/-- `Estimator.f` from src/unnamed/part_001.  Kept with the source's
parameter order `(phi, v, delta, a, x)` and its `tmp` expression
`pow2(phi) - v - exp`; the call sites below pass arguments positionally
as the source does (`e.f(delta, s.Phi, v, a, x)`). -/
noncomputable def Estimator.f (e : Estimator) (phi v delta a x : ℝ) : ℝ :=
  let exp := Real.exp x
  let tmp := pow2 phi - v - exp
  exp * (pow2 delta - tmp) / (2 * pow2 tmp) - (x - a) / pow2 e.Tau

/-- The bracket-expansion loop of `Estimator.sigmaPrime` from
src/unnamed/part_001, fuel-indexed. -/
noncomputable def Estimator.walkB (e : Estimator) (delta phi v a : ℝ) :
    ℕ → ℝ → Option ℝ
  | 0, _ => none
  | fuel + 1, k =>
    if e.f delta phi v a (a - k * e.Tau) > 0 then some (a - k * e.Tau)
    else e.walkB delta phi v a fuel (k + 1)

/-- The initial upper bracket of `Estimator.sigmaPrime` from
src/unnamed/part_001. -/
noncomputable def Estimator.bracketB (e : Estimator) (delta phi v a : ℝ)
    (fuel : ℕ) : Option ℝ :=
  if pow2 delta > pow2 phi + v then some (Real.log (pow2 delta - pow2 phi - v))
  else e.walkB delta phi v a fuel 1

/-- One iteration of the Illinois loop of `Estimator.sigmaPrime` from
src/unnamed/part_001. -/
noncomputable def Estimator.illStep (e : Estimator) (delta phi v a : ℝ)
    (st : IllState) : IllState :=
  let C := st.A + (st.A - st.B) * st.fA / (st.fB - st.fA)
  let fC := e.f delta phi v a C
  if fC * st.fB ≤ 0 then ⟨st.B, st.fB, C, fC⟩
  else ⟨st.A, st.fA / 2, C, fC⟩

/-- The Illinois loop of `Estimator.sigmaPrime` from
src/unnamed/part_001, fuel-indexed. -/
noncomputable def Estimator.illLoop (e : Estimator) (delta phi v a : ℝ) :
    ℕ → IllState → Option IllState
  | 0, st => if |st.B - st.A| > e.Epsilon then none else some st
  | fuel + 1, st =>
    if |st.B - st.A| > e.Epsilon then
      e.illLoop delta phi v a fuel (e.illStep delta phi v a st)
    else some st

/-- `Estimator.sigmaPrime` from src/unnamed/part_001: returns
`exp(a/2)` for the initial anchor `a`. -/
noncomputable def Estimator.sigmaPrime (e : Estimator) (s : Strength)
    (delta v : ℝ) (fuel : ℕ) : Option ℝ :=
  let a := Real.log (pow2 s.Sigma)
  (e.bracketB delta s.Phi v a fuel).bind fun B =>
    (e.illLoop delta s.Phi v a fuel
        ⟨a, e.f delta s.Phi v a a, B, e.f delta s.Phi v a B⟩).map
      fun _ => Real.exp (a / 2)

/-- `Estimator.Estimate` from src/unnamed/part_001: the batch update.
With an empty outcome list, only `phi` is advanced; the result is not
validated (validation is the caller's responsibility in this
revision). -/
noncomputable def Estimator.Estimate (e : Estimator) (s : Strength)
    (outcomes : List Outcome) (fuel : ℕ) : Option Strength :=
  match outcomes with
  | [] => some ⟨s.Mu, Real.sqrt (pow2 s.Phi + pow2 s.Sigma), s.Sigma⟩
  | _ =>
    let v := 1 / (outcomes.foldl (fun acc o => acc + pow2 o.g * o.e * (1 - o.e)) 0)
    let tmp := outcomes.foldl (fun acc o => acc + o.g * (o.score - o.e)) 0
    let delta := tmp * v
    (e.sigmaPrime s delta v fuel).map fun sig =>
      let phiStar := Real.sqrt (pow2 s.Phi + pow2 sig)
      let phiNew := 1 / Real.sqrt (1 / pow2 phiStar + 1 / v)
      ⟨s.Mu + pow2 phiNew * tmp, phiNew, sig⟩

end Batch

namespace GoFloatModel

/-- A Go `float64` value for the NaN analysis of `Validate`: `none`
models NaN, `some x` a real value. -/
def GoFloat : Type := Option ℝ

/-- The Go `<` comparison on `float64`: any comparison involving NaN
is false. -/
noncomputable def goLt : GoFloat → GoFloat → Bool
  | some x, some y => decide (x < y)
  | _, _ => false

/-- The Go `>` comparison on `float64`: any comparison involving NaN
is false. -/
noncomputable def goGt : GoFloat → GoFloat → Bool
  | some x, some y => decide (x > y)
  | _, _ => false

/-- The fields of `Strength` as IEEE-754 values. -/
structure StrengthF where
  Mu : GoFloat
  Phi : GoFloat
  Sigma : GoFloat

/-- The bound fields of `Estimator` as IEEE-754 values. -/
structure EstimatorF where
  MinPhi : GoFloat
  MaxPhi : GoFloat
  MinMu : GoFloat
  MaxMu : GoFloat
  MinSigma : GoFloat
  MaxSigma : GoFloat

/-- `Estimator.Validate` from src/glicko.go, modelled under IEEE-754
comparison semantics: each field is clamped through the same
`if <` / `else if >` chain as the source, with Go comparison
operators. -/
noncomputable def EstimatorF.Validate (e : EstimatorF) (s : StrengthF) : StrengthF where
  Mu := if goLt s.Mu e.MinMu then e.MinMu
    else if goGt s.Mu e.MaxMu then e.MaxMu else s.Mu
  Phi := if goLt s.Phi e.MinPhi then e.MinPhi
    else if goGt s.Phi e.MaxPhi then e.MaxPhi else s.Phi
  Sigma := if goLt s.Sigma e.MinSigma then e.MinSigma
    else if goGt s.Sigma e.MaxSigma then e.MaxSigma else s.Sigma

end GoFloatModel

/-- A concrete estimator configuration used for witnesses: bounds
`mu ∈ [-10,10]`, `phi ∈ [0,10]`, `sigma ∈ [0,10]`, `Tau = 1`,
`Epsilon = 2`. -/
noncomputable def cfgW : Glicko.Estimator where
  Duration := 0
  MinPhi := 0
  MaxPhi := 10
  MinMu := -10
  MaxMu := 10
  MinSigma := 0
  MaxSigma := 10
  Tau := 1
  Epsilon := 2

/-- A concrete estimator configuration with wide bounds used for the
symmetry counterexample: `mu ∈ [-1000,1000]`, `phi ∈ [0,1000]`,
`sigma ∈ [0,1000]`, `Tau = 1`, `Epsilon = 100`. -/
noncomputable def cfgE : Glicko.Estimator where
  Duration := 0
  MinPhi := 0
  MaxPhi := 1000
  MinMu := -1000
  MaxMu := 1000
  MinSigma := 0
  MaxSigma := 1000
  Tau := 1
  Epsilon := 100

/-- A degenerate estimator configuration with `Tau = 0`, for the
non-termination analysis of the bracket-expansion loop. -/
noncomputable def cfg4 : Glicko.Estimator where
  Duration := 0
  MinPhi := 0
  MaxPhi := 10
  MinMu := -10
  MaxMu := 10
  MinSigma := 0
  MaxSigma := 10
  Tau := 0
  Epsilon := 2

/-- Witness strength: `mu = 0`, `phi = 0`, `sigma = 1`. -/
noncomputable def sW : Glicko.Strength := ⟨0, 0, 1⟩

/-- Witness strength for the symmetry counterexample: `mu = 1`,
`phi = 10`, `sigma = 1`. -/
noncomputable def sE : Glicko.Strength := ⟨1, 10, 1⟩

/-- Witness outcome: opponent `mu = 0`, `phi = 0`, score 1 (a win). -/
noncomputable def oWin : Glicko.Outcome := ⟨0, 0, 1⟩

/-- Witness outcome: opponent `mu = 0`, `phi = 0`, score 0 (a loss). -/
noncomputable def oLoss : Glicko.Outcome := ⟨0, 0, 0⟩

/-- The expected score of `sE` against the opponent of `oWin`/`oLoss`:
`E = 1/(1 + exp(-1))`. -/
noncomputable def EE : ℝ := 1 / (1 + Real.exp (-1))

/-- The post-update `phi` of the symmetry counterexample runs:
`1/sqrt(1/101 + E(1-E))`. -/
noncomputable def phiE : ℝ := 1 / Real.sqrt (1 / 101 + EE * (1 - EE))

/-- A concrete batch estimator configuration (bounds unused by the
empty-outcome path). -/
noncomputable def cfgB : Batch.Estimator where
  MinPhi := 0
  MaxPhi := 10
  MinMu := -10
  MaxMu := 10
  MinSigma := 0
  MaxSigma := 10
  Tau := 1
  Epsilon := 1

/-- Witness legacy evaluation: rating 1500, deviation 0, volatility 1. -/
noncomputable def currW : Legacy.Evaluation := ⟨1500, 0, 1⟩

/-- Witness legacy outcome with precomputed evidence `g = 1`,
`e = 1/2` and score `1/2 + sqrt 5 / 4`, chosen so that the volatility
solver brackets at `B = log 1 = 0` and exits immediately. -/
noncomputable def oLegacy : Legacy.Outcome := ⟨0, 0, 1, 1/2, 1/2 + Real.sqrt 5 / 4⟩

/-- The legacy evaluation returned for `currW` against `oLegacy`. -/
noncomputable def resLegacy : Legacy.Evaluation :=
  ⟨Legacy.scale * (Real.sqrt 5 / 5) + 1500, 1 / Real.sqrt (5 / 4) * Legacy.scale, 1⟩

/-- Witness NaN-model estimator with bounds `[0, 1]` on each field. -/
noncomputable def eFW : GoFloatModel.EstimatorF :=
  ⟨some 0, some 1, some 0, some 1, some 0, some 1⟩

/-- Witness NaN-model strength with every field NaN. -/
def sNaN : GoFloatModel.StrengthF := ⟨none, none, none⟩

section Theorems

open Glicko

lemma clamp_mem {lo hi x : ℝ} (h : lo ≤ hi) :
    lo ≤ (if x < lo then lo else if x > hi then hi else x) ∧
      (if x < lo then lo else if x > hi then hi else x) ≤ hi := by
  split_ifs with h1 h2
  · exact ⟨le_refl lo, h⟩
  · exact ⟨h, le_refl hi⟩
  · exact ⟨not_lt.mp h1, not_lt.mp h2⟩

lemma clamp_id {lo hi x : ℝ} (h1 : lo ≤ x) (h2 : x ≤ hi) :
    (if x < lo then lo else if x > hi then hi else x) = x := by
  rw [if_neg (not_lt.mpr h1), if_neg (not_lt.mpr h2)]

lemma illLoop_exit (e : Estimator) (delta phi v a : ℝ) :
    ∀ (fuel : ℕ) (st st' : IllState),
      e.illLoop delta phi v a fuel st = some st' →
      |st'.B - st'.A| ≤ e.Epsilon := by
  intro fuel
  induction fuel with
  | zero =>
    intro st st' h
    simp only [Estimator.illLoop] at h
    split at h
    · exact absurd h (by simp)
    · next hc =>
      cases h
      exact not_lt.mp hc
  | succ n ih =>
    intro st st' h
    simp only [Estimator.illLoop] at h
    split at h
    · exact ih _ _ h
    · next hc =>
      cases h
      exact not_lt.mp hc

/-- C1: whenever the current `Estimator.sigmaPrime` returns a value,
the Illinois secant loop has run until `|B - A| ≤ epsilon`, and the
returned volatility is `exp(A/2)` for the final value of the bracket
endpoint `A` (not the initial anchor `a = log(sigma²)`). -/
theorem c1_sigmaPrime_illinois_exit (e : Estimator) (s : Strength)
    (delta v : ℝ) (fuel : ℕ) (r : ℝ)
    (h : e.sigmaPrime s delta v fuel = some r) :
    ∃ B st,
      e.bracketB delta s.Phi v (Real.log (pow2 s.Sigma)) fuel = some B ∧
      e.illLoop delta s.Phi v (Real.log (pow2 s.Sigma)) fuel
        ⟨Real.log (pow2 s.Sigma),
         e.f delta s.Phi v (Real.log (pow2 s.Sigma)) (Real.log (pow2 s.Sigma)),
         B, e.f delta s.Phi v (Real.log (pow2 s.Sigma)) B⟩ = some st ∧
      |st.B - st.A| ≤ e.Epsilon ∧ r = Real.exp (st.A / 2) := by
  simp only [Estimator.sigmaPrime] at h
  obtain ⟨B, hB, h2⟩ := Option.bind_eq_some.mp h
  obtain ⟨st, hst, hr⟩ := Option.map_eq_some'.mp h2
  exact ⟨B, st, hB, hst, illLoop_exit e delta s.Phi v _ fuel _ st hst, hr.symm⟩

/-- C2: whenever the current `Estimator.Estimate` returns, and each
configured bound pair satisfies `min ≤ max`, the three fields of the
updated strength lie within their configured ranges. -/
theorem c2_estimate_bounded (e : Estimator) (s : Strength) (o : Outcome)
    (pf : ℝ) (fuel : ℕ) (r : Strength)
    (hMu : e.MinMu ≤ e.MaxMu) (hPhi : e.MinPhi ≤ e.MaxPhi)
    (hSigma : e.MinSigma ≤ e.MaxSigma)
    (h : e.Estimate s o pf fuel = some r) :
    (e.MinMu ≤ r.Mu ∧ r.Mu ≤ e.MaxMu) ∧
    (e.MinPhi ≤ r.Phi ∧ r.Phi ≤ e.MaxPhi) ∧
    (e.MinSigma ≤ r.Sigma ∧ r.Sigma ≤ e.MaxSigma) := by
  simp only [Estimator.Estimate] at h
  obtain ⟨p, _, hp⟩ := Option.map_eq_some'.mp h
  subst hp
  exact ⟨clamp_mem hMu, clamp_mem hPhi, clamp_mem hSigma⟩

/-- C8: the current revision's root-finder inner function
`Estimator.f` computes, for all real arguments, exactly the formula of
the specification (`fSpec`). -/
theorem c8_f_matches_spec (e : Estimator) (delta phi v a x : ℝ) :
    e.f delta phi v a x = fSpec e.Tau delta phi v a x := by
  simp only [Estimator.f, fSpec, pow2]
  ring

/-- C10: the expected score `E` lies strictly between 0 and 1 for all
real inputs, so the divisor `g²·E·(1-E)` defining `V`, and `V` itself,
are strictly positive. -/
theorem c10_expected_score_positivity (o : Outcome) (mu : ℝ) :
    0 < o.e o.g mu ∧ o.e o.g mu < 1 ∧
    0 < pow2 o.g * o.e o.g mu * (1 - o.e o.g mu) ∧
    0 < 1 / (pow2 o.g * o.e o.g mu * (1 - o.e o.g mu)) := by
  have hexp : 0 < Real.exp (-o.g * (mu - o.Mu)) := Real.exp_pos _
  have hden : (0:ℝ) < 1 + Real.exp (-o.g * (mu - o.Mu)) := by linarith
  have hE0 : 0 < o.e o.g mu := by
    simp only [Outcome.e]
    exact div_pos one_pos hden
  have hE1 : o.e o.g mu < 1 := by
    simp only [Outcome.e]
    rw [div_lt_one hden]
    linarith
  have hg : 0 < o.g := by
    simp only [Outcome.g]
    have h1 : (0:ℝ) < 1 + 3 * pow2 o.Phi / pow2 Real.pi := by
      have h2 : (0:ℝ) ≤ 3 * pow2 o.Phi / pow2 Real.pi := by
        apply div_nonneg
        · simp only [pow2]
          nlinarith [mul_self_nonneg o.Phi]
        · simp only [pow2]
          nlinarith [Real.pi_pos]
      linarith
    exact div_pos one_pos (Real.sqrt_pos.mpr h1)
  have hprod : 0 < pow2 o.g * o.e o.g mu * (1 - o.e o.g mu) := by
    have h1mE : 0 < 1 - o.e o.g mu := by linarith
    have hg2 : 0 < pow2 o.g := by
      simp only [pow2]
      exact mul_pos hg hg
    exact mul_pos (mul_pos hg2 hE0) h1mE
  exact ⟨hE0, hE1, hprod, div_pos one_pos hprod⟩

lemma goLt_none (y : GoFloatModel.GoFloat) : GoFloatModel.goLt none y = false := by
  cases y <;> rfl

lemma goGt_none (y : GoFloatModel.GoFloat) : GoFloatModel.goGt none y = false := by
  cases y <;> rfl

/-- C9: under IEEE-754 comparison semantics, `Validate` leaves a NaN
field unchanged (still NaN), because both bound comparisons are false
for NaN; the bounds invariant therefore does not extend to
NaN-producing inputs. -/
theorem c9_validate_preserves_nan (e : GoFloatModel.EstimatorF)
    (s : GoFloatModel.StrengthF) :
    (s.Mu = none → (e.Validate s).Mu = none) ∧
    (s.Phi = none → (e.Validate s).Phi = none) ∧
    (s.Sigma = none → (e.Validate s).Sigma = none) := by
  refine ⟨fun h => ?_, fun h => ?_, fun h => ?_⟩ <;>
    simp [GoFloatModel.EstimatorF.Validate, h, goLt_none, goGt_none]

/-- Witness for C9 at a concrete configuration and an all-NaN
strength. -/
theorem c9_witness :
    sNaN.Mu = none ∧ (eFW.Validate sNaN).Mu = none ∧
    sNaN.Phi = none ∧ (eFW.Validate sNaN).Phi = none ∧
    sNaN.Sigma = none ∧ (eFW.Validate sNaN).Sigma = none :=
  ⟨rfl, (c9_validate_preserves_nan eFW sNaN).1 rfl,
   rfl, (c9_validate_preserves_nan eFW sNaN).2.1 rfl,
   rfl, (c9_validate_preserves_nan eFW sNaN).2.2 rfl⟩

/-- C5: the batch update of the part_001 revision, called with an
empty outcome list, leaves `mu` and `sigma` unchanged and strictly
increases `phi` whenever `sigma > 0` (the aggregation pass is skipped
entirely on this path). -/
theorem c5_empty_outcomes (e : Batch.Estimator) (s : Strength) (fuel : ℕ)
    (h : 0 < s.Sigma) :
    Batch.Estimator.Estimate e s [] fuel =
      some ⟨s.Mu, Real.sqrt (pow2 s.Phi + pow2 s.Sigma), s.Sigma⟩ ∧
    s.Phi < Real.sqrt (pow2 s.Phi + pow2 s.Sigma) := by
  constructor
  · rfl
  · rcases le_or_lt 0 s.Phi with hp | hp
    · have h1 : pow2 s.Phi < pow2 s.Phi + pow2 s.Sigma := by
        simp only [pow2]
        nlinarith
      calc s.Phi = Real.sqrt (pow2 s.Phi) := by
            rw [pow2, Real.sqrt_mul_self hp]
        _ < _ := Real.sqrt_lt_sqrt (mul_self_nonneg s.Phi) h1
    · calc s.Phi < 0 := hp
        _ ≤ _ := Real.sqrt_nonneg _

/-- Witness for C5 at a concrete strength with `sigma = 1 > 0`. -/
theorem c5_witness :
    (0:ℝ) < Strength.Sigma ⟨0, 0, 1⟩ ∧
    (Batch.Estimator.Estimate cfgB ⟨0, 0, 1⟩ [] 0 =
      some ⟨Strength.Mu ⟨0, 0, 1⟩,
        Real.sqrt (pow2 (Strength.Phi ⟨0, 0, 1⟩) + pow2 (Strength.Sigma ⟨0, 0, 1⟩)),
        Strength.Sigma ⟨0, 0, 1⟩⟩ ∧
      Strength.Phi ⟨0, 0, 1⟩ <
        Real.sqrt (pow2 (Strength.Phi ⟨0, 0, 1⟩) + pow2 (Strength.Sigma ⟨0, 0, 1⟩))) :=
  ⟨by norm_num, c5_empty_outcomes cfgB ⟨0, 0, 1⟩ 0 (by norm_num)⟩

lemma cfg4_walk_none : ∀ (fuel : ℕ) (k : ℝ),
    Estimator.walkB cfg4 0 0 0 0 fuel k = none := by
  intro fuel
  induction fuel with
  | zero => intro k; rfl
  | succ n ih =>
    intro k
    rw [Estimator.walkB, if_neg]
    · exact ih (k + 1)
    · have hx : (0:ℝ) - k * cfg4.Tau = 0 := by
        simp [cfg4]
      rw [hx]
      simp only [Estimator.f, pow2, cfg4, Real.exp_zero]
      norm_num

/-- C4: the bracket-expansion loop of `Estimator.sigmaPrime` has no
iteration cap and no failure signal.  With the degenerate `Tau = 0`
configuration, the solver returns no result for any iteration
allowance: the loop runs forever. -/
theorem c4_bracket_walk_unbounded :
    ∀ fuel : ℕ, Estimator.sigmaPrime cfg4 ⟨0, 0, 1⟩ 0 0 fuel = none := by
  intro fuel
  have ha : Real.log (pow2 (Strength.Sigma ⟨0, 0, 1⟩)) = 0 := by
    simp [pow2, Real.log_one]
  simp only [Estimator.sigmaPrime, Estimator.bracketB, ha]
  rw [if_neg]
  · rw [cfg4_walk_none fuel 1]
    rfl
  · norm_num [pow2]

lemma f_even_delta (e : Estimator) (d phi v a x : ℝ) :
    e.f (-d) phi v a x = e.f d phi v a x := by
  simp only [Estimator.f, pow2]
  ring

lemma walkB_even (e : Estimator) (d phi v a : ℝ) :
    ∀ (fuel : ℕ) (k : ℝ), e.walkB (-d) phi v a fuel k = e.walkB d phi v a fuel k := by
  intro fuel
  induction fuel with
  | zero => intro k; rfl
  | succ n ih =>
    intro k
    simp only [Estimator.walkB, f_even_delta, ih]

lemma bracketB_even (e : Estimator) (d phi v a : ℝ) (fuel : ℕ) :
    e.bracketB (-d) phi v a fuel = e.bracketB d phi v a fuel := by
  simp only [Estimator.bracketB, pow2, neg_mul_neg, walkB_even]

lemma illStep_even (e : Estimator) (d phi v a : ℝ) (st : IllState) :
    e.illStep (-d) phi v a st = e.illStep d phi v a st := by
  simp only [Estimator.illStep, f_even_delta]

lemma illLoop_even (e : Estimator) (d phi v a : ℝ) :
    ∀ (fuel : ℕ) (st : IllState),
      e.illLoop (-d) phi v a fuel st = e.illLoop d phi v a fuel st := by
  intro fuel
  induction fuel with
  | zero => intro st; rfl
  | succ n ih =>
    intro st
    simp only [Estimator.illLoop, illStep_even, ih]

lemma sigmaPrime_even (e : Estimator) (s : Strength) (d v : ℝ) (fuel : ℕ) :
    e.sigmaPrime s (-d) v fuel = e.sigmaPrime s d v fuel := by
  simp only [Estimator.sigmaPrime, bracketB_even, illLoop_even, f_even_delta]

lemma pow2_one_div_sqrt {q : ℝ} (h : 0 ≤ q) : pow2 (1 / Real.sqrt q) = 1 / q := by
  simp only [pow2]
  rw [div_mul_div_comm, Real.mul_self_sqrt h]
  norm_num

lemma illLoop_stop (e : Estimator) (delta phi v a : ℝ) (fuel : ℕ) (st : IllState)
    (h : ¬(|st.B - st.A| > e.Epsilon)) :
    e.illLoop delta phi v a fuel st = some st := by
  cases fuel with
  | zero => rw [Estimator.illLoop, if_neg h]
  | succ n => rw [Estimator.illLoop, if_neg h]

lemma f_run_eval (e : Estimator) (ht : e.Tau = 1) :
    e.f 2 0 4 0 (-1) =
      1 - Real.exp (-1) * Real.exp (-1) /
        (2 * ((4 + Real.exp (-1)) * (4 + Real.exp (-1)))) := by
  simp only [Estimator.f, pow2, ht]
  ring

lemma f_run_pos (e : Estimator) (ht : e.Tau = 1) : e.f 2 0 4 0 (-1) > 0 := by
  rw [f_run_eval e ht]
  have h0 : 0 < Real.exp (-1) := Real.exp_pos _
  have h1 : Real.exp (-1) < 1 := Real.exp_lt_one_iff.mpr (by norm_num)
  have hd : 0 < 2 * ((4 + Real.exp (-1)) * (4 + Real.exp (-1))) := by nlinarith
  have h2 : Real.exp (-1) * Real.exp (-1) <
      2 * ((4 + Real.exp (-1)) * (4 + Real.exp (-1))) := by nlinarith
  have h3 : Real.exp (-1) * Real.exp (-1) /
      (2 * ((4 + Real.exp (-1)) * (4 + Real.exp (-1)))) < 1 := by
    rw [div_lt_one hd]
    exact h2
  linarith

lemma walk_run (e : Estimator) (ht : e.Tau = 1) :
    e.walkB 2 0 4 0 1 1 = some (-1) := by
  have h1 : (0:ℝ) - 1 * e.Tau = -1 := by rw [ht]; ring
  rw [show (1:ℕ) = 0 + 1 from rfl, Estimator.walkB, h1, if_pos (f_run_pos e ht)]

lemma bracket_run (e : Estimator) (ht : e.Tau = 1) :
    e.bracketB 2 0 4 0 1 = some (-1) := by
  rw [Estimator.bracketB, if_neg (by norm_num [pow2] : ¬pow2 (2:ℝ) > pow2 0 + 4)]
  exact walk_run e ht

lemma sW_Mu : sW.Mu = 0 := rfl

lemma sW_Phi : sW.Phi = 0 := rfl

lemma sW_Sigma : sW.Sigma = 1 := rfl

lemma sigma_run (e : Estimator) (ht : e.Tau = 1) (he : e.Epsilon = 2) :
    e.sigmaPrime sW 2 4 1 = some 1 := by
  have ha : Real.log (pow2 sW.Sigma) = 0 := by
    rw [sW_Sigma]
    simp [pow2]
  simp only [Estimator.sigmaPrime, ha, sW_Phi]
  rw [bracket_run e ht]
  simp only [Option.some_bind]
  rw [illLoop_stop e 2 0 4 0 1 _ (by rw [he]; norm_num)]
  simp only [Option.map_some']
  norm_num [Real.exp_zero]

lemma sigma_run_neg (e : Estimator) (ht : e.Tau = 1) (he : e.Epsilon = 2) :
    e.sigmaPrime sW (-2) 4 1 = some 1 := by
  rw [sigmaPrime_even]
  exact sigma_run e ht he

lemma g_oWin : oWin.g = 1 := by
  simp only [Outcome.g, oWin, pow2]
  norm_num [Real.sqrt_one]

lemma g_oLoss : oLoss.g = 1 := by
  simp only [Outcome.g, oLoss, pow2]
  norm_num [Real.sqrt_one]

lemma e_oWin : oWin.e 1 0 = 1/2 := by
  simp only [Outcome.e, oWin]
  norm_num [Real.exp_zero]

lemma e_oLoss : oLoss.e 1 0 = 1/2 := by
  simp only [Outcome.e, oLoss]
  norm_num [Real.exp_zero]

lemma oWin_Score : oWin.Score = 1 := rfl

lemma oLoss_Score : oLoss.Score = 0 := rfl

lemma outcomeV_oWin : outcomeV oWin 0 = 4 := by
  simp only [outcomeV, g_oWin, e_oWin]
  norm_num [pow2]

lemma outcomeDelta_oWin : outcomeDelta oWin 0 = 2 := by
  simp only [outcomeDelta, outcomeV_oWin, g_oWin, e_oWin, oWin_Score]
  norm_num

lemma outcomeV_oLoss : outcomeV oLoss 0 = 4 := by
  simp only [outcomeV, g_oLoss, e_oLoss]
  norm_num [pow2]

lemma outcomeDelta_oLoss : outcomeDelta oLoss 0 = -2 := by
  simp only [outcomeDelta, outcomeV_oLoss, g_oLoss, e_oLoss, oLoss_Score]
  norm_num

lemma propagate_run (delta : ℝ) :
    propagate sW delta 4 1 1 = ⟨(4/5) * (delta / 4), 1 / Real.sqrt (5/4), 1⟩ := by
  simp only [propagate, sW_Mu, sW_Phi]
  rw [show Real.sqrt (pow2 (0:ℝ) + pow2 1 * 1) = 1 by
        norm_num [pow2, Real.sqrt_one]]
  rw [show (1:ℝ) / pow2 1 + 1 / 4 = 5/4 by norm_num [pow2]]
  rw [pow2_one_div_sqrt (by norm_num : (0:ℝ) ≤ 5/4)]
  norm_num

lemma pre_run_win (e : Estimator) (ht : e.Tau = 1) (he : e.Epsilon = 2) :
    e.preEstimate sW oWin 1 1 = some ⟨2/5, 1 / Real.sqrt (5/4), 1⟩ := by
  simp only [Estimator.preEstimate, sW_Mu, outcomeV_oWin, outcomeDelta_oWin]
  rw [sigma_run e ht he]
  simp only [Option.map_some']
  rw [propagate_run]
  norm_num

lemma pre_run_loss (e : Estimator) (ht : e.Tau = 1) (he : e.Epsilon = 2) :
    e.preEstimate sW oLoss 1 1 = some ⟨-(2/5), 1 / Real.sqrt (5/4), 1⟩ := by
  simp only [Estimator.preEstimate, sW_Mu, outcomeV_oLoss, outcomeDelta_oLoss]
  rw [sigma_run_neg e ht he]
  simp only [Option.map_some']
  rw [propagate_run]
  norm_num

lemma validate_id (e : Estimator) (s : Strength)
    (h1 : e.MinMu ≤ s.Mu) (h2 : s.Mu ≤ e.MaxMu)
    (h3 : e.MinPhi ≤ s.Phi) (h4 : s.Phi ≤ e.MaxPhi)
    (h5 : e.MinSigma ≤ s.Sigma) (h6 : s.Sigma ≤ e.MaxSigma) :
    e.Validate s = s := by
  obtain ⟨m, p, sg⟩ := s
  simp only [Estimator.Validate, Strength.mk.injEq]
  exact ⟨clamp_id h1 h2, clamp_id h3 h4, clamp_id h5 h6⟩

lemma sqrt54_pos : 0 < Real.sqrt (5/4) := Real.sqrt_pos.mpr (by norm_num)

lemma sqrt54_ge_one : (1:ℝ) ≤ Real.sqrt (5/4) := by
  have h := Real.sqrt_le_sqrt (show (1:ℝ) ≤ 5/4 by norm_num)
  rwa [Real.sqrt_one] at h

lemma phiW_le_one : 1 / Real.sqrt (5/4) ≤ 1 := by
  rw [div_le_one sqrt54_pos]
  exact sqrt54_ge_one

lemma est_run_win :
    cfgW.Estimate sW oWin 1 1 = some ⟨2/5, 1 / Real.sqrt (5/4), 1⟩ := by
  simp only [Estimator.Estimate]
  rw [pre_run_win cfgW rfl rfl]
  simp only [Option.map_some']
  rw [validate_id cfgW _ (by norm_num [cfgW]) (by norm_num [cfgW])
    (by show (0:ℝ) ≤ 1 / Real.sqrt (5/4); positivity)
    (by show 1 / Real.sqrt (5/4) ≤ (10:ℝ); linarith [phiW_le_one])
    (by norm_num [cfgW]) (by norm_num [cfgW])]

lemma e_half (muS phiOpp g sc : ℝ) :
    Outcome.e ⟨muS, phiOpp, sc⟩ g muS = 1/2 := by
  show 1 / (1 + Real.exp (-g * (muS - muS))) = 1/2
  rw [sub_self, mul_zero, Real.exp_zero]
  norm_num

/-- C6 (amended): when the opponent's `mu` equals the player's
starting `mu` (so that the expected score is exactly 1/2) and the two
pre-validation updated strengths respect the `mu` bounds, the two
`Estimate` calls differing only in score 1 versus score 0 move `mu` in
opposite directions from the starting `mu`, by equal magnitude. -/
theorem c6_symmetry_amended (e : Estimator) (s : Strength) (phiOpp pf : ℝ)
    (fuel : ℕ) (p1 p0 : Strength)
    (h1 : e.preEstimate s ⟨s.Mu, phiOpp, 1⟩ pf fuel = some p1)
    (h0 : e.preEstimate s ⟨s.Mu, phiOpp, 0⟩ pf fuel = some p0)
    (hb1 : e.MinMu ≤ p1.Mu) (hb2 : p1.Mu ≤ e.MaxMu)
    (hb3 : e.MinMu ≤ p0.Mu) (hb4 : p0.Mu ≤ e.MaxMu) :
    ∃ s1 s0,
      e.Estimate s ⟨s.Mu, phiOpp, 1⟩ pf fuel = some s1 ∧
      e.Estimate s ⟨s.Mu, phiOpp, 0⟩ pf fuel = some s0 ∧
      s1.Mu - s.Mu = -(s0.Mu - s.Mu) ∧ |s1.Mu - s.Mu| = |s0.Mu - s.Mu| := by
  have hD : outcomeDelta ⟨s.Mu, phiOpp, (0:ℝ)⟩ s.Mu =
      -outcomeDelta ⟨s.Mu, phiOpp, (1:ℝ)⟩ s.Mu := by
    simp only [outcomeDelta, e_half]
    rw [show (⟨s.Mu, phiOpp, (0:ℝ)⟩ : Outcome).g = (⟨s.Mu, phiOpp, (1:ℝ)⟩ : Outcome).g
        from rfl,
      show outcomeV ⟨s.Mu, phiOpp, (0:ℝ)⟩ s.Mu = outcomeV ⟨s.Mu, phiOpp, (1:ℝ)⟩ s.Mu
        from rfl]
    ring
  have h1' := h1
  have h0' := h0
  simp only [Estimator.preEstimate] at h1' h0'
  rw [hD, show outcomeV ⟨s.Mu, phiOpp, (0:ℝ)⟩ s.Mu = outcomeV ⟨s.Mu, phiOpp, (1:ℝ)⟩ s.Mu
      from rfl, sigmaPrime_even] at h0'
  obtain ⟨sig1, hsig1, hp1⟩ := Option.map_eq_some'.mp h1'
  obtain ⟨sig0, hsig0, hp0⟩ := Option.map_eq_some'.mp h0'
  have hsig : sig0 = sig1 := Option.some.inj (hsig0.symm.trans hsig1)
  subst hsig
  have key : p1.Mu - s.Mu = -(p0.Mu - s.Mu) := by
    rw [← hp1, ← hp0]
    simp only [propagate]
    ring
  refine ⟨e.Validate p1, e.Validate p0, ?_, ?_, ?_, ?_⟩
  · simp only [Estimator.Estimate]
    rw [h1]
    rfl
  · simp only [Estimator.Estimate]
    rw [h0]
    rfl
  · have v1 : (e.Validate p1).Mu = p1.Mu := clamp_id hb1 hb2
    have v0 : (e.Validate p0).Mu = p0.Mu := clamp_id hb3 hb4
    rw [v1, v0]
    exact key
  · have v1 : (e.Validate p1).Mu = p1.Mu := clamp_id hb1 hb2
    have v0 : (e.Validate p0).Mu = p0.Mu := clamp_id hb3 hb4
    rw [v1, v0, key, abs_neg]

/-- Witness for the amended C6 at a concrete run: starting strength
`sW`, opponent `mu = 0 = sW.Mu`, `phi = 0`, scores 1 and 0. -/
theorem c6_witness :
    cfgW.preEstimate sW ⟨sW.Mu, 0, 1⟩ 1 1 = some ⟨2/5, 1 / Real.sqrt (5/4), 1⟩ ∧
    cfgW.preEstimate sW ⟨sW.Mu, 0, 0⟩ 1 1 = some ⟨-(2/5), 1 / Real.sqrt (5/4), 1⟩ ∧
    cfgW.MinMu ≤ Strength.Mu ⟨2/5, 1 / Real.sqrt (5/4), 1⟩ ∧
    Strength.Mu ⟨(2:ℝ)/5, 1 / Real.sqrt (5/4), 1⟩ ≤ cfgW.MaxMu ∧
    cfgW.MinMu ≤ Strength.Mu ⟨-(2/5), 1 / Real.sqrt (5/4), 1⟩ ∧
    Strength.Mu ⟨-((2:ℝ)/5), 1 / Real.sqrt (5/4), 1⟩ ≤ cfgW.MaxMu ∧
    (∃ s1 s0,
      cfgW.Estimate sW ⟨sW.Mu, 0, 1⟩ 1 1 = some s1 ∧
      cfgW.Estimate sW ⟨sW.Mu, 0, 0⟩ 1 1 = some s0 ∧
      s1.Mu - sW.Mu = -(s0.Mu - sW.Mu) ∧ |s1.Mu - sW.Mu| = |s0.Mu - sW.Mu|) :=
  ⟨pre_run_win cfgW rfl rfl, pre_run_loss cfgW rfl rfl,
   by norm_num [cfgW], by norm_num [cfgW], by norm_num [cfgW], by norm_num [cfgW],
   c6_symmetry_amended cfgW sW 0 1 1 _ _
     (pre_run_win cfgW rfl rfl) (pre_run_loss cfgW rfl rfl)
     (by norm_num [cfgW]) (by norm_num [cfgW])
     (by norm_num [cfgW]) (by norm_num [cfgW])⟩

/-- Witness for C1 at a concrete terminating run of the volatility
solver. -/
theorem c1_witness :
    cfgW.sigmaPrime sW 2 4 1 = some 1 ∧
    ∃ B st,
      cfgW.bracketB 2 sW.Phi 4 (Real.log (pow2 sW.Sigma)) 1 = some B ∧
      cfgW.illLoop 2 sW.Phi 4 (Real.log (pow2 sW.Sigma)) 1
        ⟨Real.log (pow2 sW.Sigma),
         cfgW.f 2 sW.Phi 4 (Real.log (pow2 sW.Sigma)) (Real.log (pow2 sW.Sigma)),
         B, cfgW.f 2 sW.Phi 4 (Real.log (pow2 sW.Sigma)) B⟩ = some st ∧
      |st.B - st.A| ≤ cfgW.Epsilon ∧ (1:ℝ) = Real.exp (st.A / 2) :=
  ⟨sigma_run cfgW rfl rfl,
   c1_sigmaPrime_illinois_exit cfgW sW 2 4 1 1 (sigma_run cfgW rfl rfl)⟩

/-- Witness for C2 at a concrete terminating run of `Estimate`. -/
theorem c2_witness :
    cfgW.MinMu ≤ cfgW.MaxMu ∧ cfgW.MinPhi ≤ cfgW.MaxPhi ∧
    cfgW.MinSigma ≤ cfgW.MaxSigma ∧
    cfgW.Estimate sW oWin 1 1 = some ⟨2/5, 1 / Real.sqrt (5/4), 1⟩ ∧
    ((cfgW.MinMu ≤ Strength.Mu ⟨2/5, 1 / Real.sqrt (5/4), 1⟩ ∧
        Strength.Mu ⟨(2:ℝ)/5, 1 / Real.sqrt (5/4), 1⟩ ≤ cfgW.MaxMu) ∧
      (cfgW.MinPhi ≤ Strength.Phi ⟨(2:ℝ)/5, 1 / Real.sqrt (5/4), 1⟩ ∧
        Strength.Phi ⟨(2:ℝ)/5, 1 / Real.sqrt (5/4), 1⟩ ≤ cfgW.MaxPhi) ∧
      (cfgW.MinSigma ≤ Strength.Sigma ⟨(2:ℝ)/5, 1 / Real.sqrt (5/4), 1⟩ ∧
        Strength.Sigma ⟨(2:ℝ)/5, 1 / Real.sqrt (5/4), 1⟩ ≤ cfgW.MaxSigma)) :=
  ⟨by norm_num [cfgW], by norm_num [cfgW], by norm_num [cfgW], est_run_win,
   c2_estimate_bounded cfgW sW oWin 1 1 _
     (by norm_num [cfgW]) (by norm_num [cfgW]) (by norm_num [cfgW]) est_run_win⟩

lemma sE_Mu : sE.Mu = 1 := rfl

lemma sE_Phi : sE.Phi = 10 := rfl

lemma sE_Sigma : sE.Sigma = 1 := rfl

lemma exp_neg_one_pos : 0 < Real.exp (-1) := Real.exp_pos _

lemma exp_neg_one_lt_one : Real.exp (-1) < 1 := Real.exp_lt_one_iff.mpr (by norm_num)

lemma exp_neg_one_gt_quarter : 1/4 < Real.exp (-1) := by
  have h4 : Real.exp 1 < 4 := lt_trans Real.exp_one_lt_d9 (by norm_num)
  have h := one_div_lt_one_div_of_lt (Real.exp_pos 1) h4
  rw [Real.exp_neg, ← one_div]
  exact h

lemma EE_pos : 0 < EE := by
  simp only [EE]
  positivity

lemma EE_gt_half : 1/2 < EE := by
  simp only [EE]
  have h2 : (1:ℝ) + Real.exp (-1) < 2 := by linarith [exp_neg_one_lt_one]
  have h := one_div_lt_one_div_of_lt
    (by positivity : (0:ℝ) < 1 + Real.exp (-1)) h2
  calc (1:ℝ)/2 = 1/2 := rfl
    _ < 1/(1 + Real.exp (-1)) := by
        have := one_div_lt_one_div_of_lt
          (by positivity : (0:ℝ) < 1 + Real.exp (-1)) h2
        linarith [this]

lemma EE_lt_one : EE < 1 := by
  simp only [EE]
  rw [div_lt_one (by positivity)]
  linarith [exp_neg_one_pos]

lemma EE_lt_45 : EE < 4/5 := by
  simp only [EE]
  have h5 : (5:ℝ)/4 < 1 + Real.exp (-1) := by linarith [exp_neg_one_gt_quarter]
  have h := one_div_lt_one_div_of_lt (by norm_num : (0:ℝ) < 5/4) h5
  calc 1/(1 + Real.exp (-1)) < 1/(5/4) := h
    _ = 4/5 := by norm_num

lemma q_pos : 0 < EE * (1 - EE) := mul_pos EE_pos (by linarith [EE_lt_one])

lemma V_pos : 0 < 1/(EE * (1 - EE)) := div_pos one_pos q_pos

lemma e_oWin_sE : oWin.e 1 1 = EE := by
  simp only [Outcome.e, oWin, EE]
  norm_num

lemma e_oLoss_sE : oLoss.e 1 1 = EE := by
  simp only [Outcome.e, oLoss, EE]
  norm_num

lemma outcomeV_sE_win : outcomeV oWin 1 = 1/(EE * (1 - EE)) := by
  simp only [outcomeV, g_oWin, e_oWin_sE]
  norm_num [pow2]

lemma outcomeV_sE_loss : outcomeV oLoss 1 = 1/(EE * (1 - EE)) := by
  simp only [outcomeV, g_oLoss, e_oLoss_sE]
  norm_num [pow2]

lemma outcomeDelta_sE_win :
    outcomeDelta oWin 1 = 1/(EE * (1 - EE)) * (1 - EE) := by
  simp only [outcomeDelta, outcomeV_sE_win, g_oWin, e_oWin_sE, oWin_Score]
  ring

lemma outcomeDelta_sE_loss :
    outcomeDelta oLoss 1 = -(1/(EE * (1 - EE)) * EE) := by
  simp only [outcomeDelta, outcomeV_sE_loss, g_oLoss, e_oLoss_sE, oLoss_Score]
  ring

lemma EE_ne : EE ≠ 0 := ne_of_gt EE_pos

lemma EE_one_sub_ne : 1 - EE ≠ 0 := ne_of_gt (by linarith [EE_lt_one])

lemma D1_sq_le :
    pow2 (1/(EE * (1 - EE)) * (1 - EE)) ≤ pow2 (10:ℝ) + 1/(EE * (1 - EE)) := by
  have e1 : 1/(EE * (1 - EE)) * (1 - EE) = 1/EE := by
    rw [div_mul_eq_mul_div, one_mul,
      div_eq_div_iff (mul_ne_zero EE_ne EE_one_sub_ne) EE_ne]
    ring
  rw [e1]
  simp only [pow2]
  have e2 : 1/EE ≤ 2 := by
    rw [div_le_iff₀ EE_pos]
    linarith [EE_gt_half]
  have e3 : 0 < 1/EE := div_pos one_pos EE_pos
  nlinarith [V_pos]

lemma D0_sq_le :
    pow2 (-(1/(EE * (1 - EE)) * EE)) ≤ pow2 (10:ℝ) + 1/(EE * (1 - EE)) := by
  have e1 : 1/(EE * (1 - EE)) * EE = 1/(1 - EE) := by
    rw [div_mul_eq_mul_div, one_mul,
      div_eq_div_iff (mul_ne_zero EE_ne EE_one_sub_ne) EE_one_sub_ne]
    ring
  simp only [pow2, neg_mul_neg]
  rw [e1]
  have h1E : (0:ℝ) < 1 - EE := by linarith [EE_lt_one]
  have e2 : 1/(1 - EE) ≤ 5 := by
    rw [div_le_iff₀ h1E]
    linarith [EE_lt_45]
  have e3 : 0 < 1/(1 - EE) := div_pos one_pos h1E
  nlinarith [V_pos]

lemma f_cfgE_pos (e : Estimator) (ht : e.Tau = 1) (D vv : ℝ) (hV0 : 0 < vv)
    (hD : pow2 D ≤ pow2 (10:ℝ) + vv) : e.f D 10 vv 0 (-1) > 0 := by
  have hu0 : 0 < Real.exp (-1) := exp_neg_one_pos
  have hu1 : Real.exp (-1) < 1 := exp_neg_one_lt_one
  simp only [pow2] at hD
  simp only [Estimator.f, pow2, ht]
  set u := Real.exp (-1) with hu
  set t := (10:ℝ) * 10 + vv + u with htd
  have ht0 : (100:ℝ) < t := by
    simp only [htd]
    linarith
  have habs : u * (t - D * D) < 2 * (t * t) := by nlinarith
  have h2t : 0 < 2 * (t * t) := by nlinarith
  have hrw : u * (D * D - t) / (2 * (t * t)) = -(u * (t - D * D) / (2 * (t * t))) := by
    ring
  rw [hrw]
  have hlt : u * (t - D * D) / (2 * (t * t)) < 1 := by
    rw [div_lt_one h2t]
    exact habs
  have hc : (-1 - (0:ℝ)) / (1 * 1) = -1 := by norm_num
  rw [hc]
  linarith

lemma sigma_run_E (e : Estimator) (ht : e.Tau = 1) (he : e.Epsilon = 100)
    (D vv : ℝ) (hV0 : 0 < vv) (hD : pow2 D ≤ pow2 (10:ℝ) + vv) :
    e.sigmaPrime sE D vv 1 = some 1 := by
  have ha : Real.log (pow2 sE.Sigma) = 0 := by
    rw [sE_Sigma]
    simp [pow2]
  simp only [Estimator.sigmaPrime, ha, sE_Phi]
  rw [Estimator.bracketB, if_neg (not_lt.mpr hD)]
  rw [show (1:ℕ) = 0 + 1 from rfl, Estimator.walkB,
    show (0:ℝ) - 1 * e.Tau = -1 by rw [ht]; ring,
    if_pos (f_cfgE_pos e ht D vv hV0 hD)]
  simp only [Option.some_bind]
  rw [illLoop_stop e D 10 vv 0 (0 + 1) _ (by rw [he]; norm_num)]
  simp only [Option.map_some']
  norm_num [Real.exp_zero]

lemma propagate_run_E (D : ℝ) :
    propagate sE D (1/(EE * (1 - EE))) 1 1 =
      ⟨1 + pow2 phiE * (D / (1/(EE * (1 - EE)))), phiE, 1⟩ := by
  simp only [propagate, sE_Mu, sE_Phi]
  rw [show pow2 (10:ℝ) + pow2 1 * 1 = 101 by norm_num [pow2]]
  rw [show (1:ℝ) / pow2 (Real.sqrt 101) = 1/101 by
        rw [show pow2 (Real.sqrt 101) = 101 by
              simp only [pow2]
              exact Real.mul_self_sqrt (by norm_num)]]
  rw [one_div_one_div]
  rfl

lemma phiE_arg_pos : (0:ℝ) < 1/101 + EE * (1 - EE) := by
  linarith [q_pos]

lemma pow2_phiE_eq : pow2 phiE = 1/(1/101 + EE * (1 - EE)) := by
  simp only [phiE]
  exact pow2_one_div_sqrt phiE_arg_pos.le

lemma pow2_phiE_pos : 0 < pow2 phiE := by
  rw [pow2_phiE_eq]
  exact div_pos one_pos phiE_arg_pos

lemma pow2_phiE_le : pow2 phiE ≤ 101 := by
  rw [pow2_phiE_eq]
  have h1 : (1:ℝ)/101 ≤ 1/101 + EE * (1 - EE) := by linarith [q_pos]
  calc 1/(1/101 + EE * (1 - EE)) ≤ 1/(1/101) :=
        one_div_le_one_div_of_le (by norm_num) h1
    _ = 101 := by norm_num

lemma phiE_pos : 0 < phiE :=
  div_pos one_pos (Real.sqrt_pos.mpr phiE_arg_pos)

lemma phiE_le_11 : phiE ≤ 11 := by
  have hself : phiE * phiE ≤ 121 := by
    have := pow2_phiE_le
    simp only [pow2] at this
    linarith
  calc phiE = Real.sqrt (phiE * phiE) := (Real.sqrt_mul_self phiE_pos.le).symm
    _ ≤ Real.sqrt 121 := Real.sqrt_le_sqrt hself
    _ = 11 := by
        rw [show (121:ℝ) = 11 * 11 by norm_num,
          Real.sqrt_mul_self (by norm_num : (0:ℝ) ≤ 11)]

lemma est_run_E_win :
    cfgE.Estimate sE oWin 1 1 = some ⟨1 + pow2 phiE * (1 - EE), phiE, 1⟩ := by
  simp only [Estimator.Estimate, Estimator.preEstimate, sE_Mu]
  rw [outcomeDelta_sE_win, outcomeV_sE_win]
  rw [sigma_run_E cfgE rfl rfl _ _ V_pos D1_sq_le]
  simp only [Option.map_some']
  rw [propagate_run_E]
  rw [show 1/(EE * (1 - EE)) * (1 - EE) / (1/(EE * (1 - EE))) = 1 - EE by
        rw [mul_comm, mul_div_assoc, div_self (ne_of_gt V_pos), mul_one]]
  rw [validate_id cfgE _
    (show cfgE.MinMu ≤ 1 + pow2 phiE * (1 - EE) by
      have := mul_nonneg pow2_phiE_pos.le
        (by linarith [EE_lt_one] : (0:ℝ) ≤ 1 - EE)
      norm_num [cfgE]
      linarith)
    (show 1 + pow2 phiE * (1 - EE) ≤ cfgE.MaxMu by
      have h1 : pow2 phiE * (1 - EE) ≤ 101 * 1 := by
        apply mul_le_mul pow2_phiE_le (by linarith [EE_pos]) (by linarith [EE_lt_one]) (by norm_num)
      norm_num [cfgE]
      linarith)
    (show cfgE.MinPhi ≤ phiE by
      norm_num [cfgE]
      exact phiE_pos.le)
    (show phiE ≤ cfgE.MaxPhi by
      norm_num [cfgE]
      linarith [phiE_le_11])
    (show cfgE.MinSigma ≤ 1 by norm_num [cfgE])
    (show (1:ℝ) ≤ cfgE.MaxSigma by norm_num [cfgE])]

lemma est_run_E_loss :
    cfgE.Estimate sE oLoss 1 1 = some ⟨1 + pow2 phiE * (-EE), phiE, 1⟩ := by
  simp only [Estimator.Estimate, Estimator.preEstimate, sE_Mu]
  rw [outcomeDelta_sE_loss, outcomeV_sE_loss]
  rw [sigma_run_E cfgE rfl rfl _ _ V_pos D0_sq_le]
  simp only [Option.map_some']
  rw [propagate_run_E]
  rw [show -(1/(EE * (1 - EE)) * EE) / (1/(EE * (1 - EE))) = -EE by
        rw [neg_div, mul_comm, mul_div_assoc, div_self (ne_of_gt V_pos), mul_one]]
  rw [validate_id cfgE _
    (show cfgE.MinMu ≤ 1 + pow2 phiE * (-EE) by
      have h1 : pow2 phiE * EE ≤ 101 * 1 := by
        apply mul_le_mul pow2_phiE_le (by linarith [EE_lt_one]) EE_pos.le (by norm_num)
      norm_num [cfgE]
      nlinarith)
    (show 1 + pow2 phiE * (-EE) ≤ cfgE.MaxMu by
      have := mul_nonneg pow2_phiE_pos.le EE_pos.le
      norm_num [cfgE]
      nlinarith)
    (show cfgE.MinPhi ≤ phiE by
      norm_num [cfgE]
      exact phiE_pos.le)
    (show phiE ≤ cfgE.MaxPhi by
      norm_num [cfgE]
      linarith [phiE_le_11])
    (show cfgE.MinSigma ≤ 1 by norm_num [cfgE])
    (show (1:ℝ) ≤ cfgE.MaxSigma by norm_num [cfgE])]

/-- C6 (counterexample): two `Estimate` calls identical except for the
score (1 versus 0), against a fixed opponent whose `mu` differs from
the player's (`sE.Mu = 1`, opponent `mu = 0`): both calls return, but
the two post-update `mu` values do NOT move by equal magnitude from
the starting `mu`, because the expected score is not `1/2` and the two
evidence shifts `Delta` have different magnitudes. -/
theorem c6_counterexample :
    cfgE.Estimate sE oWin 1 1 = some ⟨1 + pow2 phiE * (1 - EE), phiE, 1⟩ ∧
    cfgE.Estimate sE oLoss 1 1 = some ⟨1 + pow2 phiE * (-EE), phiE, 1⟩ ∧
    ¬(|Strength.Mu ⟨1 + pow2 phiE * (1 - EE), phiE, 1⟩ - sE.Mu| =
        |Strength.Mu ⟨1 + pow2 phiE * (-EE), phiE, 1⟩ - sE.Mu|) := by
  refine ⟨est_run_E_win, est_run_E_loss, ?_⟩
  intro h
  rw [show Strength.Mu ⟨1 + pow2 phiE * (1 - EE), phiE, 1⟩ - sE.Mu =
        pow2 phiE * (1 - EE) by rw [sE_Mu]; ring,
    show Strength.Mu ⟨1 + pow2 phiE * (-EE), phiE, 1⟩ - sE.Mu =
        -(pow2 phiE * EE) by rw [sE_Mu]; ring,
    abs_neg] at h
  rw [abs_of_pos (mul_pos pow2_phiE_pos (by linarith [EE_lt_one])),
    abs_of_pos (mul_pos pow2_phiE_pos EE_pos)] at h
  nlinarith [pow2_phiE_pos, EE_gt_half, h]

/-- C3: the legacy batch path `EvaluatePlayer` (the repository's only
batch entry point) returns a volatility exactly equal to the input
volatility whenever it returns at all, because its `sigmaPrime`
returns `exp(a/2)` for the initial anchor `a = log(sigma²)`.  The
batch reference volatility 0.05999 of the worked example is therefore
unreachable from the 0.06 start: the batch code keeps volatility at
0.06. -/
theorem c3_batch_volatility_never_updates (curr : Legacy.Evaluation)
    (outcomes : List Legacy.Outcome) (fuel : ℕ) (r : Legacy.Evaluation)
    (hs : 0 < curr.Volatility)
    (h : Legacy.EvaluatePlayer curr outcomes fuel = some r) :
    r.Volatility = curr.Volatility := by
  simp only [Legacy.EvaluatePlayer, Legacy.sigmaPrime] at h
  obtain ⟨vol, hvol, hr⟩ := Option.map_eq_some'.mp h
  obtain ⟨B, hB, h2⟩ := Option.bind_eq_some.mp hvol
  obtain ⟨st, hst, hv⟩ := Option.map_eq_some'.mp h2
  have hexp : Real.exp (Real.log (pow2 curr.Volatility) / 2) = curr.Volatility := by
    rw [pow2, Real.log_mul (ne_of_gt hs) (ne_of_gt hs),
      show (Real.log curr.Volatility + Real.log curr.Volatility) / 2 =
        Real.log curr.Volatility by ring]
    exact Real.exp_log hs
  rw [← hr]
  show vol = curr.Volatility
  rw [← hv]
  exact hexp

lemma legacy_illLoop_stop (delta phi v a : ℝ) (fuel : ℕ) (st : IllState)
    (h : ¬(|st.B - st.A| > Legacy.epsilon)) :
    Legacy.illLoop delta phi v a fuel st = some st := by
  cases fuel with
  | zero => rw [Legacy.illLoop, if_neg h]
  | succ n => rw [Legacy.illLoop, if_neg h]

lemma legacy_sigma_run : Legacy.sigmaPrime 1 (Real.sqrt 5) 0 4 1 = some 1 := by
  have ha : Real.log (pow2 (1:ℝ)) = 0 := by simp [pow2]
  simp only [Legacy.sigmaPrime, ha]
  rw [Legacy.bracketB, if_pos]
  · rw [show Real.log (pow2 (Real.sqrt 5) - pow2 (0:ℝ) - 4) = 0 by
        rw [show pow2 (Real.sqrt 5) - pow2 (0:ℝ) - 4 = 1 by
              simp only [pow2]
              rw [Real.mul_self_sqrt (by norm_num : (0:ℝ) ≤ 5)]
              norm_num]
        exact Real.log_one]
    simp only [Option.some_bind]
    rw [legacy_illLoop_stop _ _ _ _ _ _ (by norm_num [Legacy.epsilon])]
    simp only [Option.map_some']
    norm_num [Real.exp_zero]
  · simp only [pow2]
    rw [Real.mul_self_sqrt (by norm_num : (0:ℝ) ≤ 5)]
    norm_num

lemma legacy_run : Legacy.EvaluatePlayer currW [oLegacy] 1 = some resLegacy := by
  have hmu : Legacy.calcMu currW.Rating = 0 := by
    simp [Legacy.calcMu, currW]
  have hphi : Legacy.calcPhi currW.Deviation = 0 := by
    simp [Legacy.calcPhi, currW]
  have hcv : currW.Volatility = 1 := rfl
  have hv : Legacy.calcV [oLegacy] = 4 := by
    simp only [Legacy.calcV, List.foldl, oLegacy]
    norm_num [pow2]
  have hsum : List.foldl (fun acc o => acc + o.g * (o.score - o.e)) 0 [oLegacy] =
      Real.sqrt 5 / 4 := by
    simp only [List.foldl, oLegacy]
    ring
  have hdelta : Legacy.calcDelta 4 [oLegacy] = Real.sqrt 5 := by
    simp only [Legacy.calcDelta, hsum]
    ring
  simp only [Legacy.EvaluatePlayer, hmu, hphi, hcv, hv, hdelta, hsum,
    legacy_sigma_run, Option.map_some']
  rw [show pow2 (0:ℝ) + pow2 1 = 1 by norm_num [pow2], Real.sqrt_one]
  rw [show (1:ℝ) / pow2 1 + 1 / 4 = 5/4 by norm_num [pow2]]
  simp only [resLegacy, Option.some.injEq, Legacy.Evaluation.mk.injEq]
  refine ⟨?_, by trivial, by trivial⟩
  rw [pow2_one_div_sqrt (by norm_num : (0:ℝ) ≤ 5/4)]
  ring

/-- Witness for C3 at a concrete terminating legacy run: the returned
volatility equals the input volatility exactly. -/
theorem c3_witness :
    (0:ℝ) < currW.Volatility ∧
    Legacy.EvaluatePlayer currW [oLegacy] 1 = some resLegacy ∧
    resLegacy.Volatility = currW.Volatility :=
  ⟨by norm_num [currW], legacy_run,
   c3_batch_volatility_never_updates currW [oLegacy] 1 resLegacy
     (by norm_num [currW]) legacy_run⟩

end Theorems
